import Mathlib

/-!
# Verification of the price-sniper attribute reconciliation pipeline

A shallow embedding of `src/main.py`: the text cleaning and description
validator, the JSON-LD structured-data extractor, the price hunter
cascade, the AI circuit breaker, the auto-linker record repair, and the
persistence shaping of `process_product`.  Python strings are modelled as
`List Char`, Python floats carrying prices as `ℚ`, Python `None`-or-value
as `Option`.  Python truthiness (`if not x`) is modelled explicitly:
`None`, `""` and `0.0` are falsy.
-/

namespace PriceSniper

/-- Python strings are modelled as lists of characters. -/
abbrev LC := List Char

/-- Characters matched by Python's `\s` regex class (ASCII subset). -/
def pyIsSpace (c : Char) : Bool :=
  c == ' ' || c == '\t' || c == '\n' || c == '\r' || c == '\x0b' || c == '\x0c'

/-- One pass of `re.sub(r'\s+', ' ', text)`: every maximal run of
whitespace becomes a single space. -/
def collapseWs : List Char → List Char
  | [] => []
  | [c] => if pyIsSpace c then [' '] else [c]
  | c :: d :: rest =>
    if pyIsSpace c then
      if pyIsSpace d then collapseWs (d :: rest)
      else ' ' :: collapseWs (d :: rest)
    else c :: collapseWs (d :: rest)

/-- Python `str.strip()`: drop leading and trailing whitespace. -/
def stripWs (l : List Char) : List Char :=
  ((l.dropWhile pyIsSpace).reverse.dropWhile pyIsSpace).reverse

/-- The body of `clean_text` on a truthy string:
`re.sub(r'\s+', ' ', text).strip()`. -/
def cleanTxt (l : LC) : LC := stripWs (collapseWs l)

/-- The function `clean_text(text)` from `src/main.py`: `None` (and the falsy empty
string) map to `None`, otherwise whitespace is normalized. -/
def clean_text : Option LC → Option LC
  | none => none
  | some l => if l.isEmpty then none else some (cleanTxt l)

/-- Python lowercasing, character by character (ASCII). -/
def lowerL (l : LC) : LC := l.map Char.toLower

/-- Python's `needle in haystack` substring test. -/
def containsSub (haystack needle : LC) : Bool :=
  match haystack with
  | [] => needle.isEmpty
  | _ :: t => needle.isPrefixOf haystack || containsSub t needle

/-- The `BANNED_PHRASES` list from `src/main.py`. -/
def BANNED_PHRASES : List LC :=
  ["login", "sign in", "password", "cart", "checkout", "loading",
   "cookie", "javascript", "rights reserved", "privacy policy",
   "terms", "newsletter", "shipping", "click here", "read more"].map
    String.toList

/-- The function `validate_description(text, title)` from `src/main.py`: rejects falsy
or too-short text, text containing a banned boilerplate phrase, and text
that is materially just the title repeated. -/
def validate_description (text : Option LC) (title : Option LC) : Option LC :=
  match text with
  | none => none
  | some t =>
    if t.isEmpty then none
    else
      let clean := cleanTxt t
      let low := lowerL clean
      if clean.length < 40 then none
      else if BANNED_PHRASES.any (fun b => containsSub low b) then none
      else
        match title with
        | none => some clean
        | some ti =>
          if !ti.isEmpty && containsSub low (lowerL ti) &&
              decide (clean.length < ti.length + 25) then none
          else some clean

/-! ## Price hunter (`process_product`, step 4) -/

/-- Python truthiness of an optional price: `None` and `0.0` are falsy. -/
def pyTruthy : Option ℚ → Bool
  | none => false
  | some v => decide (v ≠ 0)

/-- The plausible-range filter applied to regex price matches:
`15 < v < 50000`. -/
def inRange (v : ℚ) : Bool := decide (15 < v) && decide (v < 50000)

/-- Python `max` over a list, `none` on the empty list. -/
def pyListMax : List ℚ → Option ℚ
  | [] => none
  | v :: rest =>
    match pyListMax rest with
    | none => some v
    | some m => some (max v m)

/-- The price cascade of `process_product`: start from the JSON-LD price;
if falsy, take the parsed `og:price:amount` meta tag when present; if
still falsy, take the maximum of the in-range visible-text regex matches
(the price is left unchanged when no match survives the filter).
`meta` is `some v` exactly when the meta tag exists and parsed to `v`. -/
def priceHunter (jsonld meta : Option ℚ) (found : List ℚ) : Option ℚ :=
  let p1 := jsonld
  let p2 := if pyTruthy p1 then p1 else
    match meta with
    | some v => some v
    | none => p1
  if pyTruthy p2 then p2
  else
    match pyListMax (found.filter inRange) with
    | some m => some m
    | none => p2

/-- The dict `update_data` carries a `price` key only when the hunted price is
truthy (`if price: update_data['price'] = price`). -/
def persistPrice (p : Option ℚ) : Option ℚ :=
  if pyTruthy p then p else none

/-- A `price_history` row is inserted exactly when the hunted price is
truthy (`if price:` around the insert). -/
def historyWritten (p : Option ℚ) : Bool := pyTruthy p

/-- The persisted product name:
`(data.get('name') or "Unknown Product")[:255]`. -/
def persistName (name : Option LC) : LC :=
  (match name with
   | some n => if n.isEmpty then String.toList "Unknown Product" else n
   | none => String.toList "Unknown Product").take 255

/-! ## Structured data (`extract_json_ld`) -/

/-- One JSON-LD offer object; a missing key is `none`.  `lowPrice` is
the "low/sale" field the spec speaks about. -/
structure LdOffer where
  price : Option ℚ := none
  lowPrice : Option ℚ := none
  priceCurrency : Option String := none
deriving DecidableEq

/-- One JSON-LD item.  `offers` holds the offer list (`[]` when the
`offers` key is absent or falsy); the code uses `offers[0]` when it is a
list, which is `offers.head?` here.  An image list is represented by its
first element. -/
structure LdItem where
  type : String
  name : Option LC := none
  description : Option LC := none
  image : Option String := none
  offers : List LdOffer := []
deriving DecidableEq

/-- One `<script type="application/ld+json">` block: either text that
fails to parse (swallowed by the `except: continue`) or a parsed item
list (a single object is the one-element list). -/
inductive LdScript where
  | malformed
  | parsed (items : List LdItem)
deriving DecidableEq

/-- The `data` dictionary accumulated by `extract_json_ld`. -/
structure ExtractedData where
  name : Option LC := none
  description : Option LC := none
  image_url : Option String := none
  price : Option ℚ := none
  currency : Option String := none
deriving DecidableEq

/-- Folding one JSON-LD item into `data`: only `Product` / `ItemPage`
items contribute; each present key overwrites the accumulator; the price
is read from the first offer's `price` key. -/
def applyLdItem (d : ExtractedData) (it : LdItem) : ExtractedData :=
  if it.type == "Product" || it.type == "ItemPage" then
    let d1 := match it.name with
      | some n => { d with name := some n }
      | none => d
    let d2 := match it.description with
      | some s => { d1 with description := some s }
      | none => d1
    let d3 := match it.image with
      | some i => { d2 with image_url := some i }
      | none => d2
    match it.offers.head? with
    | none => d3
    | some off =>
      let d4 := match off.price with
        | some p => { d3 with price := some p }
        | none => d3
      match off.priceCurrency with
      | some c => { d4 with currency := some c }
      | none => d4
  else d

/-- The function `extract_json_ld(soup)`: fold all script blocks, skipping malformed
ones. -/
def extract_json_ld (scripts : List LdScript) : ExtractedData :=
  scripts.foldl
    (fun d s =>
      match s with
      | .malformed => d
      | .parsed items => items.foldl applyLdItem d)
    {}

/-! ## Description smart-fill (`process_product`, steps 3 and 5) -/

/-- Python truthiness of an optional string: `None` and `""` are falsy. -/
def pyTruthyL : Option LC → Bool
  | none => false
  | some l => !l.isEmpty

/-- The parsed AI answer: a dict with optional `description` and
`specs`. -/
structure AiData where
  description : Option LC := none
  specs : List (String × String) := []
deriving DecidableEq

/-- Step 3 of `process_product`: when the current description fails the
validator, scan the candidate container divs (in class order) and adopt
the first cleaned text that validates; otherwise the current value —
validated or not — is kept. -/
def descSmartFill (cur : Option LC) (name : Option LC) (divs : List LC) :
    Option LC :=
  if (validate_description cur name).isSome then cur
  else
    match divs.find? (fun t => (validate_description (clean_text (some t)) name).isSome) with
    | some t => clean_text (some t)
    | none => cur

/-- The AI fill of step 5: when the AI call produced data and the current
description is falsy, the AI description is taken verbatim. -/
def descAfterAI (cur : Option LC) (ai : Option AiData) : Option LC :=
  match ai with
  | none => cur
  | some a => if pyTruthyL cur then cur else a.description

/-- The description persisted in `update_data`: smart-fill then AI
fill. -/
def descPipeline (jsonldDesc : Option LC) (name : Option LC)
    (divs : List LC) (ai : Option AiData) : Option LC :=
  descAfterAI (descSmartFill jsonldDesc name divs) ai

/-! ## AI circuit breaker (`call_ai_enhancer`) -/

/-- The global circuit state: `AI_CIRCUIT_BROKEN` and
`AI_FAILURE_COUNT`. -/
structure CircuitState where
  broken : Bool
  failures : ℕ
deriving DecidableEq

/-- The state at process start: `AI_CIRCUIT_BROKEN = False`,
`AI_FAILURE_COUNT = 0`. -/
def initCircuit : CircuitState := ⟨false, 0⟩

/-- The externally observable outcome of one attempted AI request:
a 200 with parseable JSON, a 200 whose body fails to parse (raises into
the `except`), a 429 rate limit, another HTTP status, or a request
exception. -/
inductive AIOutcome where
  | ok (d : AiData)
  | okBadJson
  | rateLimit
  | httpError
  | netError
deriving DecidableEq

/-- What one call to `call_ai_enhancer` yields: the returned value, the
updated global state, and whether an HTTP request was made at all. -/
structure AiCallResult where
  result : Option AiData
  state : CircuitState
  contacted : Bool
deriving DecidableEq

/-- The function `call_ai_enhancer` as a state transformer.  A broken circuit returns
`None` at once.  A 429 breaks the circuit.  Another failing status
increments the failure count and breaks the circuit when the count
exceeds 3.  The `except` branch (request error or unparseable 200 body)
only increments the count. -/
def call_ai_enhancer (s : CircuitState) (o : AIOutcome) : AiCallResult :=
  if s.broken then ⟨none, s, false⟩
  else
    match o with
    | .ok d => ⟨some d, s, true⟩
    | .okBadJson => ⟨none, { s with failures := s.failures + 1 }, true⟩
    | .rateLimit => ⟨none, { s with broken := true }, true⟩
    | .httpError =>
      if 3 < s.failures + 1 then ⟨none, ⟨true, s.failures + 1⟩, true⟩
      else ⟨none, { s with failures := s.failures + 1 }, true⟩
    | .netError => ⟨none, { s with failures := s.failures + 1 }, true⟩

/-- The circuit state after a sequence of attempted calls in one run. -/
def runCircuit (s : CircuitState) (os : List AIOutcome) : CircuitState :=
  os.foldl (fun st o => (call_ai_enhancer st o).state) s

/-! ## Record repair and batch isolation (`process_product`, `main`) -/

/-- The `product_id` field of a work row: SQL `NULL`, the string
sentinel `"None"`, or a real id. -/
inductive PidRef where
  | missing
  | sentinelNone
  | linked (id : ℕ)
deriving DecidableEq

/-- The auto-linker fires on `pid is None or pid == "None"`. -/
def needsRepair : PidRef → Bool
  | .linked _ => false
  | .missing => true
  | .sentinelNone => true

/-- One work row together with the environment the auto-linker meets:
whether its two repair DB calls succeed, and the id the insert would
return. -/
structure Row where
  pid : PidRef
  repairDbOk : Bool
  newId : ℕ
deriving DecidableEq

/-- How one row leaves the auto-linker: abandoned by the
`except ... return`, or carried forward with a product id, recording the
id written to the source record when a repair happened. -/
inductive Outcome where
  | abandoned
  | processed (pid : ℕ) (sourceLink : Option ℕ)
deriving DecidableEq

/-- The auto-linker prefix of `process_product`: a linked row proceeds
unchanged; an orphan row is repaired (insert a placeholder product, point
the source record at it) and proceeds with the new id, or is abandoned
when the DB calls fail. -/
def processRow (r : Row) : Outcome :=
  match r.pid with
  | .linked i => .processed i none
  | _ => if r.repairDbOk then .processed r.newId (some r.newId) else .abandoned

/-- The function `main` runs every row to its own outcome; a row's failure is caught
inside `process_product`, so each row of the batch gets an outcome. -/
def runBatch (rows : List Row) : List Outcome := rows.map processRow

/-! ## The spec's Price Reconciler -/

/-- The evidence sources named by the spec's data model. -/
inductive EvSource where
  | structuredData
  | metaTag
  | visibleTextPrecision
  | visibleTextBroad
  | aiInference
deriving DecidableEq

/-- One piece of price evidence as the spec describes it: a source, a
numeric value, and a source-level trust weight. -/
structure Evidence where
  source : EvSource
  value : ℚ
  trust : ℕ
deriving DecidableEq

/-- Summed trust of the evidence carrying a given value. -/
def trustSum (es : List Evidence) (v : ℚ) : ℕ :=
  (es.filter (fun e => e.value == v)).foldl (fun a e => a + e.trust) 0

/-- Modelled from the spec: the Price Reconciler of §4.3, which is not
present in `src/main.py` — discard out-of-range evidence, group by exact
value, sum each group's trust, select the value of maximum summed
trust. -/
def specReconcile (es : List Evidence) : Option ℚ :=
  let inR := es.filter (fun e => inRange e.value)
  let vals := (inR.map (fun e => e.value)).dedup
  vals.foldl
    (fun best v =>
      match best with
      | none => some v
      | some b => if trustSum inR b < trustSum inR v then some v else some b)
    none

/-- Modelled from the spec: the StructuredData extractor of §4.1 prefers
a "low/sale" price field over the general "price" field when both
exist — this preference is absent from `extract_json_ld`. -/
def specOfferPrice (off : LdOffer) : Option ℚ :=
  match off.lowPrice with
  | some p => some p
  | none => off.price

/-! ## Helper lemmas -/

/-- The function `pyListMax` returns an element of its input list. -/
lemma pyListMax_mem {l : List ℚ} {m : ℚ} (h : pyListMax l = some m) :
    m ∈ l := by
  induction l with
  | nil => simp [pyListMax] at h
  | cons v rest ih =>
    unfold pyListMax at h
    cases hr : pyListMax rest with
    | none => rw [hr] at h; simp at h; simp [h]
    | some mr =>
      rw [hr] at h
      simp at h
      rcases max_choice v mr with hc | hc <;> rw [hc] at h
      · rw [← h]; exact List.mem_cons_self _ _
      · rw [h] at hr
        exact List.mem_cons_of_mem _ (ih hr)

/-! ## Claims -/

/-- C1, counterexample: the claim says the code's chosen price is decided
by grouping in-range evidence by value and picking the largest summed
trust.  On the evidence set {VisibleText-precision 369.00 (trust 6),
VisibleText-broad 1000.00 (trust 2)} — two regex matches in the code —
the code picks the maximum match 1000.00 while the claimed trust-weighted
grouping picks 369.00. -/
theorem C1_counterexample :
    priceHunter none none [369, 1000] = some 1000
  ∧ specReconcile [⟨.visibleTextPrecision, 369, 6⟩, ⟨.visibleTextBroad, 1000, 2⟩]
      = some 369
  ∧ some (1000 : ℚ) ≠ some (369 : ℚ) := by
  refine ⟨by decide, by decide, by decide⟩

/-- C1, amended: the code chooses the price by a fixed priority cascade —
a truthy StructuredData price wins outright, else a parsed MetaTag price,
else the maximum in-range visible-text match — not by summed-trust
grouping.  For the claim's evidence set the chosen price is nevertheless
369.00, because the MetaTag source outranks visible text. -/
theorem C1_priority_cascade (j m : Option ℚ) (ms : List ℚ) :
    (pyTruthy j = true → priceHunter j m ms = j)
  ∧ (pyTruthy j = false → pyTruthy m = true → priceHunter j m ms = m)
  ∧ (j = none → m = none → priceHunter j m ms = pyListMax (ms.filter inRange))
  ∧ priceHunter none (some 369) [369, 1000] = some 369 := by
  refine ⟨?_, ?_, ?_, by decide⟩
  · intro hj
    simp [priceHunter, hj]
  · intro hj hm
    cases m with
    | none => simp [pyTruthy] at hm
    | some v => simp [priceHunter, hj, hm]
  · intro hj hm
    subst hj; subst hm
    cases hx : pyListMax (ms.filter inRange) with
    | none => simp [priceHunter, pyTruthy, hx]
    | some q => simp [priceHunter, pyTruthy, hx]

/-- C1, witness for the amended theorem. -/
theorem C1_priority_cascade_witness :
    priceHunter (some 369) none [] = some 369
  ∧ priceHunter none (some 369) [369, 1000] = some 369
  ∧ priceHunter none none [20, 30] = some 30 := by
  refine ⟨(C1_priority_cascade (some 369) none []).1 (by decide),
          (C1_priority_cascade none (some 369) [369, 1000]).2.2.2, ?_⟩
  have h := (C1_priority_cascade none none [20, 30]).2.2.1 rfl rfl
  rw [h]; decide

/-- C2, counterexample: the claim says an out-of-range price (4.99 or
75000) is never selected from any source; but the range filter guards
only the visible-text regex path, so a structured-data price of 4.99 and
a meta-tag price of 75000 are both selected and persisted. -/
theorem C2_counterexample :
    persistPrice (priceHunter (some (mkRat 499 100)) none [])
      = some (mkRat 499 100)
  ∧ inRange (mkRat 499 100) = false
  ∧ (mkRat 499 100 : ℚ) = 4.99
  ∧ persistPrice (priceHunter none (some 75000) []) = some 75000
  ∧ inRange 75000 = false := by
  refine ⟨by decide, by decide, by norm_num [mkRat], by decide, by decide⟩

/-- C2, amended: only the visible-text regex path is range-filtered —
when the structured-data and meta-tag sources yield nothing, any selected
price lies strictly between 15 and 50000; structured-data and meta-tag
prices bypass the filter. -/
theorem C2_regex_range_filter (ms : List ℚ) (p : ℚ)
    (h : priceHunter none none ms = some p) :
    15 < p ∧ p < 50000 := by
  unfold priceHunter at h
  cases hm : pyListMax (ms.filter inRange) with
  | none => rw [hm] at h; simp [pyTruthy] at h
  | some q =>
    rw [hm] at h
    simp [pyTruthy] at h
    have hq := pyListMax_mem hm
    rw [List.mem_filter] at hq
    have := hq.2
    rw [h] at this
    simp [inRange] at this
    exact this

/-- C2, witness for the amended theorem. -/
theorem C2_regex_range_filter_witness : (15 : ℚ) < 20 ∧ (20 : ℚ) < 50000 :=
  C2_regex_range_filter [20] 20 (by decide)

/-- C4, counterexample: the claim says the breaker opens when the count
of non-rate-limit failures (including request exceptions) reaches 3.  In
the code three failing HTTP responses leave the circuit closed (it opens
on the fourth, since the test is `count > 3`), and request exceptions
alone never open it at all. -/
theorem C4_counterexample :
    (runCircuit initCircuit [.httpError, .httpError, .httpError]).broken = false
  ∧ (runCircuit initCircuit
      [.netError, .netError, .netError, .netError, .netError]).broken = false
  ∧ (runCircuit initCircuit
      [.httpError, .httpError, .httpError, .httpError]).broken = true := by
  refine ⟨by decide, by decide, by decide⟩

/-- C4, amended: from the Closed state, a single rate-limit response
opens the breaker; a non-rate-limit HTTP failure increments the failure
count and opens it exactly when the count exceeds 3 (so on the fourth
counted failure); request exceptions and unparseable success bodies
increment the count but the threshold is only checked on non-rate-limit
HTTP responses; while Open, no AI request is made. -/
theorem C4_breaker_transitions (s : CircuitState) (d : AiData)
    (h : s.broken = false) :
    ((call_ai_enhancer s .rateLimit).state.broken = true)
  ∧ ((call_ai_enhancer s .httpError).state.broken = decide (3 < s.failures + 1))
  ∧ ((call_ai_enhancer s .netError).state = { s with failures := s.failures + 1 })
  ∧ ((call_ai_enhancer s .okBadJson).state = { s with failures := s.failures + 1 })
  ∧ ((call_ai_enhancer s (.ok d)).state = s)
  ∧ (∀ s2 o2, s2.broken = true → (call_ai_enhancer s2 o2).contacted = false) := by
  refine ⟨by simp [call_ai_enhancer, h], ?_,
          by simp [call_ai_enhancer, h], by simp [call_ai_enhancer, h],
          by simp [call_ai_enhancer, h], ?_⟩
  · by_cases h4 : 3 < s.failures + 1 <;> simp [call_ai_enhancer, h, h4]
  · intro s2 o2 h2
    simp [call_ai_enhancer, h2]

/-- C4, witness for the amended theorem. -/
theorem C4_breaker_transitions_witness :
    (call_ai_enhancer ⟨false, 3⟩ .httpError).state.broken = true
  ∧ (call_ai_enhancer ⟨false, 3⟩ .rateLimit).state.broken = true := by
  have h := C4_breaker_transitions ⟨false, 3⟩ {} rfl
  exact ⟨by rw [h.2.1]; decide, h.1⟩

/-- C5: the circuit is monotonic within a run — a fresh run starts
Closed, and once `AI_CIRCUIT_BROKEN` is true every call leaves the state
untouched, returns no data, and contacts no external model. -/
theorem C5_monotonicity (s : CircuitState) (o : AIOutcome)
    (h : s.broken = true) :
    initCircuit.broken = false
  ∧ (call_ai_enhancer s o).state = s
  ∧ (call_ai_enhancer s o).result = none
  ∧ (call_ai_enhancer s o).contacted = false
  ∧ (∀ s2 o2, s2.broken = true → ((call_ai_enhancer s2 o2).state).broken = true) := by
  refine ⟨rfl, by simp [call_ai_enhancer, h], by simp [call_ai_enhancer, h],
          by simp [call_ai_enhancer, h], ?_⟩
  intro s2 o2 h2
  simp [call_ai_enhancer, h2]

/-- C5, witness. -/
theorem C5_monotonicity_witness :
    initCircuit.broken = false
  ∧ (call_ai_enhancer ⟨true, 0⟩ .rateLimit).state = ⟨true, 0⟩
  ∧ (call_ai_enhancer ⟨true, 0⟩ .rateLimit).result = none
  ∧ (call_ai_enhancer ⟨true, 0⟩ .rateLimit).contacted = false
  ∧ (∀ s2 o2, s2.broken = true →
      ((call_ai_enhancer s2 o2).state).broken = true) :=
  C5_monotonicity ⟨true, 0⟩ .rateLimit rfl

/-- C8, counterexample: the claim says the structured-data extractor
prefers a "low/sale" price field over the general "price" field; the
code reads only `offer['price']`, so an offer with `lowPrice` 299 and
`price` 369 yields 369, not 299. -/
theorem C8_counterexample :
    (extract_json_ld [.parsed [{ type := "Product",
                                 offers := [{ price := some 369,
                                              lowPrice := some 299 }] }]]).price
      = some 369
  ∧ specOfferPrice { price := some 369, lowPrice := some 299 } = some 299
  ∧ some (369 : ℚ) ≠ some (299 : ℚ) := by
  refine ⟨by decide, by decide, by decide⟩

/-- C8, amended: the extractor reads exactly the first offer's `price`
key, ignoring any low/sale field, and a malformed script block
contributes no evidence. -/
theorem C8_price_field_only (off : LdOffer) :
    (extract_json_ld [.parsed [{ type := "Product", offers := [off] }]]).price
      = off.price
  ∧ extract_json_ld [.malformed] = ({} : ExtractedData) := by
  constructor
  · obtain ⟨p, lp, c⟩ := off
    cases p <;> cases c <;> simp [extract_json_ld, applyLdItem]
  · rfl

/-- C3, counterexample: the claim says every persisted description passed
the Validator.  A structured-data description that fails validation
("Buy now": 7 characters, below the 40-character minimum) is retained by
the smart-fill when no container text validates, and is persisted. -/
theorem C3_counterexample :
    descPipeline (some (String.toList "Buy now")) none [] none
      = some (String.toList "Buy now")
  ∧ validate_description (some (String.toList "Buy now")) none = none := by
  refine ⟨by decide, by decide⟩

/-- C3, amended: the Validator gates only the container smart-fill — a
description adopted from a container div passed the Validator, but a
structured-data (or AI) description that fails validation is retained
and persisted when no container text validates. -/
theorem C3_container_validated (name : Option LC) (divs : List LC) (d : LC)
    (h : divs.find?
        (fun t => (validate_description (clean_text (some t)) name).isSome)
        = some d) :
    descPipeline none name divs none = clean_text (some d)
  ∧ (validate_description (clean_text (some d)) name).isSome = true := by
  have hsat := List.find?_some h
  constructor
  · have hnone : validate_description none name = none := rfl
    simp only [descPipeline, descAfterAI, descSmartFill, hnone,
      Option.isSome_none, Bool.false_eq_true, if_false, h]
  · simpa using hsat

/-- C3, witness for the amended theorem. -/
theorem C3_container_validated_witness :
    descPipeline none none [List.replicate 45 'a'] none
      = some (List.replicate 45 'a')
  ∧ (validate_description (some (List.replicate 45 'a')) none).isSome = true := by
  have h := C3_container_validated none [List.replicate 45 'a']
    (List.replicate 45 'a') (by decide)
  have hc : clean_text (some (List.replicate 45 'a'))
      = some (List.replicate 45 'a') := by decide
  exact ⟨h.1.trans hc, hc ▸ h.2⟩

/-- C6: boundary behaviour of `validate_description` on already-clean
text — length exactly 40 is accepted (when no banned phrase occurs and
the text is not a title echo), length 39 is rejected, and text containing
the title with total length below the title's length plus 25 is rejected
as a title echo. -/
theorem C6_validator_boundary (text title : LC)
    (hc : cleanTxt text = text) (hne : text.isEmpty = false)
    (hti : title.isEmpty = false) :
    (text.length = 40 →
      BANNED_PHRASES.any (fun b => containsSub (lowerL text) b) = false →
      (containsSub (lowerL text) (lowerL title) &&
        decide (text.length < title.length + 25)) = false →
      validate_description (some text) (some title) = some text)
  ∧ (text.length = 39 → validate_description (some text) (some title) = none)
  ∧ (containsSub (lowerL text) (lowerL title) = true →
      text.length < title.length + 25 →
      validate_description (some text) (some title) = none) := by
  refine ⟨?_, ?_, ?_⟩
  · intro h40 hb he
    have hcond : (!title.isEmpty && containsSub (lowerL text) (lowerL title) &&
        decide (text.length < title.length + 25)) = false := by
      cases hd : decide (text.length < title.length + 25) with
      | false => simp [hd]
      | true =>
        rw [hd, Bool.and_true] at he
        simp [he]
    have hlt : ¬ (text.length < 40) := by omega
    simp [validate_description, hne, hc, hb, hcond, hlt]
  · intro h39
    have hlt : text.length < 40 := by omega
    simp [validate_description, hne, hc, hlt]
  · intro hsub hlen
    simp only [validate_description, hne, Bool.false_eq_true, if_false, hc]
    by_cases h40 : text.length < 40
    · simp [h40]
    · simp only [h40, if_false]
      by_cases hb : BANNED_PHRASES.any (fun b => containsSub (lowerL text) b)
      · simp [hb]
      · simp [hb, hti, hsub, hlen]

/-- C6, witness. -/
theorem C6_validator_boundary_witness :
    validate_description (some (List.replicate 40 'a'))
      (some (String.toList "zzz")) = some (List.replicate 40 'a')
  ∧ validate_description (some (List.replicate 39 'a'))
      (some (String.toList "zzz")) = none
  ∧ validate_description (some (List.replicate 40 'a'))
      (some (List.replicate 20 'a')) = none := by
  refine ⟨(C6_validator_boundary (List.replicate 40 'a') (String.toList "zzz")
            (by decide) (by decide) (by decide)).1
            (by decide) (by decide) (by decide),
          (C6_validator_boundary (List.replicate 39 'a') (String.toList "zzz")
            (by decide) (by decide) (by decide)).2.1 (by decide),
          (C6_validator_boundary (List.replicate 40 'a') (List.replicate 20 'a')
            (by decide) (by decide) (by decide)).2.2 (by decide) (by decide)⟩

/-- C7: when no price evidence survives — the structured-data and
meta-tag prices are falsy and every regex match is filtered out — the
persisted price is absent and no price-history row is written; in
particular the result is never a zero-valued price. -/
theorem C7_no_evidence_absent (j m : Option ℚ) (ms : List ℚ)
    (hj : pyTruthy j = false) (hm : pyTruthy m = false)
    (hf : ms.filter inRange = []) :
    persistPrice (priceHunter j m ms) = none
  ∧ historyWritten (priceHunter j m ms) = false := by
  have hp2 : priceHunter j m ms = (match m with
      | some v => some v
      | none => j) := by
    unfold priceHunter
    rw [hf]
    cases m with
    | none => simp [hj, pyListMax]
    | some v =>
      have hv : pyTruthy (some v) = false := hm
      simp [hj, hv, pyListMax]
  rw [hp2]
  cases m with
  | none => simp [persistPrice, historyWritten, hj]
  | some v =>
    have hv : pyTruthy (some v) = false := hm
    simp [persistPrice, historyWritten, hv]

/-- C7, witness: evidence 4.99 and 75000 is filtered out, nothing else
exists, and the verdict is an absent price with no history row. -/
theorem C7_no_evidence_absent_witness :
    persistPrice (priceHunter none none [mkRat 499 100, 75000]) = none
  ∧ historyWritten (priceHunter none none [mkRat 499 100, 75000]) = false :=
  C7_no_evidence_absent none none [mkRat 499 100, 75000] rfl rfl (by decide)

/-- C9: a work row whose product reference is absent or the `"None"`
sentinel is repaired — when the repair's DB calls succeed the row
proceeds with the newly inserted id and the source record is pointed at
it; when they fail only that row is abandoned, and every row of the
batch still gets its own independent outcome. -/
theorem C9_repair_then_proceed (rows : List Row) (i : ℕ) (r : Row)
    (hr : rows[i]? = some r) (hneeds : needsRepair r.pid = true) :
    (runBatch rows).length = rows.length
  ∧ (r.repairDbOk = true →
      (runBatch rows)[i]? = some (.processed r.newId (some r.newId)))
  ∧ (r.repairDbOk = false → (runBatch rows)[i]? = some .abandoned)
  ∧ (∀ (j : ℕ) (s : Row), rows[j]? = some s →
      (runBatch rows)[j]? = some (processRow s)) := by
  have hmap : ∀ j : ℕ, (runBatch rows)[j]? = rows[j]?.map processRow := by
    intro j
    simp [runBatch, List.getElem?_map]
  have hpro : processRow r =
      if r.repairDbOk then Outcome.processed r.newId (some r.newId)
      else .abandoned := by
    obtain ⟨pid, ok, nid⟩ := r
    cases pid with
    | linked id => simp [needsRepair] at hneeds
    | missing => simp [processRow]
    | sentinelNone => simp [processRow]
  refine ⟨by simp [runBatch], ?_, ?_, ?_⟩
  · intro hok
    rw [hmap i, hr]
    simp [hpro, hok]
  · intro hko
    rw [hmap i, hr]
    simp [hpro, hko]
  · intro j s hs
    rw [hmap j, hs]
    rfl

/-- C9, witness: a two-row batch whose first row is an orphan repaired
with id 7, and a one-row batch whose orphan repair fails. -/
theorem C9_repair_then_proceed_witness :
    (runBatch [⟨.missing, true, 7⟩, ⟨.linked 3, true, 0⟩])[0]?
      = some (.processed 7 (some 7))
  ∧ (runBatch [⟨.sentinelNone, false, 9⟩])[0]? = some .abandoned := by
  refine ⟨(C9_repair_then_proceed [⟨.missing, true, 7⟩, ⟨.linked 3, true, 0⟩]
            0 ⟨.missing, true, 7⟩ rfl rfl).2.1 rfl,
          (C9_repair_then_proceed [⟨.sentinelNone, false, 9⟩]
            0 ⟨.sentinelNone, false, 9⟩ rfl rfl).2.2.1 rfl⟩

/-- C10: the persisted product name is truncated to at most 255
characters, and an absent name is persisted as the literal placeholder
"Unknown Product". -/
theorem C10_name_persistence (name : Option LC) :
    (persistName name).length ≤ 255
  ∧ (name = none → persistName name = String.toList "Unknown Product") := by
  constructor
  · have htake : ∀ l : LC, (l.take 255).length ≤ 255 := by
      intro l
      rw [List.length_take]
      exact min_le_left _ _
    unfold persistName
    cases name with
    | none => exact htake _
    | some n => cases hn : n.isEmpty <;> simp only [hn] <;> exact htake _
  · intro h
    subst h
    decide

/-- C10, witness. -/
theorem C10_name_persistence_witness :
    (persistName none).length ≤ 255
  ∧ persistName none = String.toList "Unknown Product" :=
  ⟨(C10_name_persistence none).1, (C10_name_persistence none).2 rfl⟩

end PriceSniper
